import Mathlib

/-!
A shallow embedding of the session-and-delivery core of `src/index.js`
(the Lothis WhatsApp bot): the SQLite-backed session store and delivery
dedup ledger, the OpenAI Assistants client helpers, and the webhook
message handler, together with theorems about the specified properties.

Database tables are modelled as association lists, SQLite statement
execution as pure functions returning `Except` (a thrown constraint
error is the `.error` case), and the network as an explicit environment
of responses.  Externally visible side effects (remote HTTP calls and
outbound WhatsApp sends) are collected in a trace.
-/

namespace Lothis

/-! ### JavaScript string helpers

`jsToLower` models `String.prototype.toLowerCase`, `jsTrim` models
`String.prototype.trim`, `jsTruthy` models the truthiness test applied
to a string-or-nullish value (`undefined`, `null` and `""` are falsy),
and `jsOrNull` models the `x || null` idiom. -/

def jsToLower (s : String) : String := ⟨s.data.map Char.toLower⟩

def jsTrim (s : String) : String :=
  ⟨((s.data.dropWhile Char.isWhitespace).reverse.dropWhile Char.isWhitespace).reverse⟩

def jsTruthy : Option String → Bool
  | none => false
  | some s => s != ""

def jsOrNull (o : Option String) : Option String :=
  if jsTruthy o then o else none

/-! ### The database (src/index.js lines 40-68)

`threads(chat_id TEXT PRIMARY KEY, thread_id TEXT NOT NULL, language TEXT,
updated_at INTEGER NOT NULL)` and
`seen_messages(msg_id TEXT PRIMARY KEY, created_at INTEGER NOT NULL)`.

`thread_id` is carried as `Option String` so that the NOT NULL column
constraint is an explicit check of the write path, exactly as in SQLite:
an `INSERT ... ON CONFLICT DO UPDATE` that would store NULL into
`thread_id` aborts with a constraint error and leaves the table
unchanged. -/

structure ThreadRow where
  chat_id : String
  thread_id : Option String
  language : Option String
  updated_at : Nat
deriving DecidableEq

abbrev ThreadsTable := List ThreadRow

/-- `SELECT thread_id, language FROM threads WHERE chat_id = ?` (plus the
row's other columns; the prepared statement only projects, it does not
transform). -/
def getThread (tbl : ThreadsTable) (chatId : String) : Option ThreadRow :=
  tbl.find? (fun r => r.chat_id == chatId)

/-- `INSERT INTO threads ... ON CONFLICT(chat_id) DO UPDATE SET
thread_id = excluded.thread_id,
language = COALESCE(excluded.language, threads.language),
updated_at = excluded.updated_at`.  Storing NULL into the NOT NULL
`thread_id` column (whether by the insert or by the conflict update)
aborts the statement with a constraint error. -/
def upsertThread (tbl : ThreadsTable) (chatId : String) (threadId : Option String)
    (language : Option String) (updatedAt : Nat) : Except String ThreadsTable :=
  match threadId with
  | none => .error "NOT NULL constraint failed: threads.thread_id"
  | some t =>
    match getThread tbl chatId with
    | some _ =>
      .ok (tbl.map (fun r =>
        if r.chat_id == chatId then
          { r with
            thread_id := some t
            language := match language with
              | some l => some l
              | none => r.language
            updated_at := updatedAt }
        else r))
    | none =>
      .ok (tbl ++ [{ chat_id := chatId, thread_id := some t,
                     language := language, updated_at := updatedAt }])

/-- `UPDATE threads SET language = ? WHERE chat_id = ?`. -/
def setLanguage (tbl : ThreadsTable) (language chatId : String) : ThreadsTable :=
  tbl.map (fun r => if r.chat_id == chatId then { r with language := some language } else r)

/-- `SELECT language FROM threads WHERE chat_id = ?`: `none` means no row,
`some l` is the row's (possibly NULL) language column. -/
def getLanguage (tbl : ThreadsTable) (chatId : String) : Option (Option String) :=
  (getThread tbl chatId).map (fun r => r.language)

/-- `SELECT 1 FROM seen_messages WHERE msg_id = ?` viewed as a Boolean. -/
def seenMsg (seen : List String) (msgId : String) : Bool := seen.contains msgId

/-- `INSERT INTO seen_messages (msg_id, created_at) VALUES (?, ?)` — a plain
insert with `msg_id` as primary key, so a duplicate insert aborts with a
uniqueness constraint error. -/
def markSeen (seen : List String) (msgId : String) : Except String (List String) :=
  if seen.contains msgId then .error "UNIQUE constraint failed: seen_messages.msg_id"
  else .ok (msgId :: seen)

/-! ### The remote environment and effect traces

The OpenAI service's responses are an oracle supplied from outside; each
`.error e` stands for a non-2xx HTTP response whose body/status printout
is `e`.  `pollRes i` is the response to the `i`-th status query of the
polling loop and `pollFuel` is the number of loop iterations the 25s
wall-clock budget admits. -/

/-- One element of a message's `content` array: `type` together with the
(optional) `text.value` payload. -/
structure ContentBlock where
  type : String
  textValue : Option String
deriving DecidableEq

/-- One message returned by `GET /threads/:id/messages?limit=10&order=desc`;
`content = none` models a non-array `content` field. -/
structure RemoteMsg where
  role : String
  content : Option (List ContentBlock)
deriving DecidableEq

structure RemoteEnv where
  createThreadRes : Except String String
  addMessageRes : String → String → Except String Unit
  runRes : String → Option String → Except String String
  pollRes : Nat → Except String String
  pollFuel : Nat
  msgsRes : String → Except String (List RemoteMsg)

/-- The externally visible side effects of handling one inbound event. -/
inductive Effect where
  | createThread : Effect
  | appendMessage : String → String → Effect
  | startRun : String → Option String → Effect
  | pollRun : String → String → Effect
  | fetchMessages : String → Effect
  | sendText : String → String → Effect
deriving DecidableEq

/-! ### OpenAI Assistants helpers (src/index.js lines 141-212) -/

/-- `openaiCreateThread` (lines 141-150): returns the new thread id, or
throws `Create thread failed: ...` on a non-ok response. -/
def openaiCreateThread (env : RemoteEnv) : Except String String :=
  match env.createThreadRes with
  | .error e => .error ("Create thread failed: " ++ e)
  | .ok tid => .ok tid

/-- `openaiAddUserMessage` (lines 152-159). -/
def openaiAddUserMessage (env : RemoteEnv) (threadId content : String) :
    Except String Unit :=
  match env.addMessageRes threadId content with
  | .error e => .error ("Add message failed: " ++ e)
  | .ok _ => .ok ()

/-- `openaiRun` (lines 161-175): starts a run whose request body carries
`instructions: Respond in language: <lang>` exactly when `lang` is set. -/
def openaiRun (env : RemoteEnv) (threadId : String) (lang : Option String) :
    Except String String :=
  match env.runRes threadId lang with
  | .error e => .error ("Run failed: " ++ e)
  | .ok runId => .ok runId

/-- The body of `openaiPollRun`'s while loop (lines 179-192): `i` is the
index of the next status query, `fuel` the number of iterations the
wall-clock budget still admits. -/
def pollLoop (pollRes : Nat → Except String String) : Nat → Nat → Except String String
  | _, 0 => .ok "timeout"
  | i, fuel + 1 =>
    match pollRes i with
    | .error e => .error ("Poll failed: " ++ e)
    | .ok status =>
      if status == "completed" then .ok "completed"
      else if status == "failed" || status == "cancelled" || status == "expired" then
        .ok status
      else pollLoop pollRes (i + 1) fuel

/-- `openaiPollRun` (lines 177-194): polls until a terminal status or the
budget runs out, in which case it returns `"timeout"` without throwing. -/
def openaiPollRun (env : RemoteEnv) : Except String String :=
  pollLoop env.pollRes 0 env.pollFuel

/-- The accumulation loop of `openaiGetLastAssistantText` (lines 207-210):
`out += block.text.value` for each block of `type === "text"` with a
truthy `text.value`. -/
def segmentsConcat (blocks : List ContentBlock) : String :=
  blocks.foldl (fun out b =>
    if b.type == "text" && jsTruthy b.textValue then out ++ b.textValue.getD ""
    else out) ""

/-- `openaiGetLastAssistantText` (lines 196-212) applied to the message
list the remote returned (most recent first): the first assistant-role
message's text blocks concatenated and trimmed, `""` when there is no
assistant message or its content is not an array. -/
def openaiGetLastAssistantText (msgs : List RemoteMsg) : String :=
  match msgs.find? (fun m => m.role == "assistant") with
  | none => ""
  | some m =>
    match m.content with
    | none => ""
    | some blocks => jsTrim (segmentsConcat blocks)

/-! ### `lothisReply` (src/index.js lines 214-239)

Split along the source's sequence points so that the post-poll branch
(lines 231-238) is addressable on its own.  A `ReplyResult` carries the
returned text or the thrown error, the threads table as left behind, and
the trace of remote calls made. -/

structure ReplyResult where
  out : Except String String
  threads : ThreadsTable
  trace : List Effect

/-- Line 224: `existingLang || getLanguage.get(chatId)?.language || null`. -/
def effectiveLang (threads : ThreadsTable) (chatId : String)
    (existingLang : Option String) : Option String :=
  match existingLang with
  | some l => some l
  | none => jsOrNull ((getLanguage threads chatId).bind (fun x => x))

/-- Line 225: `lang ? [LANG:lang] userText : userText`. -/
def contentFor (lang : Option String) (userText : String) : String :=
  match lang with
  | some l => "[LANG:" ++ l ++ "] " ++ userText
  | none => userText

/-- Lines 231-238: after the poll resolved to `status`, either the static
hiccup apology (any non-completed status), or the fetched assistant text
with the static try-again fallback when it is empty. -/
def lothisAfterPoll (env : RemoteEnv) (threadId : String) (lang : Option String)
    (threads : ThreadsTable) (trace : List Effect) (status : String) : ReplyResult :=
  if status != "completed" then
    { out := .ok (if lang == some "nl" then
        "Ik ben er heel even niet lekker doorheen. Probeer het zo nog een keer."
      else "I’m having a brief hiccup. Please try again in a moment.")
      threads := threads, trace := trace }
  else
    match env.msgsRes threadId with
    | .error e =>
      { out := .error ("Get messages failed: " ++ e), threads := threads,
        trace := trace ++ [Effect.fetchMessages threadId] }
    | .ok msgs =>
      let text := openaiGetLastAssistantText msgs
      { out := .ok (if text != "" then text
          else if lang == some "nl" then "Wil je dat nog een keer zeggen?"
          else "Can you try again?")
        threads := threads, trace := trace ++ [Effect.fetchMessages threadId] }

/-- Lines 229-238: `openaiPollRun` then the post-poll branch. -/
def lothisAfterRun (env : RemoteEnv) (threadId : String) (lang : Option String)
    (threads : ThreadsTable) (trace : List Effect) (runId : String) : ReplyResult :=
  match openaiPollRun env with
  | .error e =>
    { out := .error e, threads := threads, trace := trace ++ [Effect.pollRun threadId runId] }
  | .ok status =>
    lothisAfterPoll env threadId lang threads (trace ++ [Effect.pollRun threadId runId]) status

/-- Lines 224-238, once a (truthy) thread id is in hand. -/
def lothisWithThread (env : RemoteEnv) (threads : ThreadsTable)
    (chatId userText threadId : String) (existingLang : Option String)
    (trace0 : List Effect) : ReplyResult :=
  let lang := effectiveLang threads chatId existingLang
  let content := contentFor lang userText
  let trace1 := trace0 ++ [Effect.appendMessage threadId content]
  match openaiAddUserMessage env threadId content with
  | .error e => { out := .error e, threads := threads, trace := trace1 }
  | .ok _ =>
    let trace2 := trace1 ++ [Effect.startRun threadId lang]
    match openaiRun env threadId lang with
    | .error e => { out := .error e, threads := threads, trace := trace2 }
    | .ok runId => lothisAfterRun env threadId lang threads trace2 runId

/-- `lothisReply(chatId, userText)` (lines 214-239): resolve or lazily
create the thread (preserving a pre-existing language through the
upsert), then append, run, poll and fetch. -/
def lothisReply (env : RemoteEnv) (threads : ThreadsTable)
    (chatId userText : String) (now : Nat) : ReplyResult :=
  let row := getThread threads chatId
  let existingLang := jsOrNull (row.bind (fun r => r.language))
  match jsOrNull (row.bind (fun r => r.thread_id)) with
  | some tid => lothisWithThread env threads chatId userText tid existingLang []
  | none =>
    match openaiCreateThread env with
    | .error e => { out := .error e, threads := threads, trace := [Effect.createThread] }
    | .ok tid =>
      match upsertThread threads chatId (some tid) existingLang now with
      | .error e => { out := .error e, threads := threads, trace := [Effect.createThread] }
      | .ok t2 => lothisWithThread env t2 chatId userText tid existingLang [Effect.createThread]

/-! ### The webhook POST handler (src/index.js lines 258-332) -/

/-- The `WEBSITE_URL` configuration default (line 19). -/
def WEBSITE_URL : String := "https://lothis.com"

/-- `helpText(lang)` (lines 95-130). -/
def helpText (lang : Option String) : String :=
  if lang = some "nl" then
    String.intercalate "\n"
      ["Welkom bij Lothis 👋", "", "Commands:", "• /start  — intro",
       "• /lang   — kies taal (nl/en/de)", "• /nl /en /de — zet taal direct", "",
       "Meer info: " ++ WEBSITE_URL]
  else if lang = some "de" then
    String.intercalate "\n"
      ["Willkommen bei Lothis 👋", "", "Commands:", "• /start — intro",
       "• /lang  — Sprache wählen (nl/en/de)", "• /nl /en /de — Sprache direkt setzen", "",
       "Mehr Info: " ++ WEBSITE_URL]
  else
    String.intercalate "\n"
      ["Welcome to Lothis 👋", "", "Commands:", "• /start — intro",
       "• /lang  — choose language (nl/en/de)", "• /nl /en /de — set language directly", "",
       "More info: " ++ WEBSITE_URL]

/-- The `/lang` prompt (lines 295-300). -/
def langPrompt (lang : Option String) : String :=
  if lang = some "nl" then "Kies taal door te sturen: /nl, /en, of /de"
  else if lang = some "de" then "Wähle Sprache: /nl, /en, oder /de"
  else "Choose language: /nl, /en, or /de"

/-- `langCmds = { "/nl": "nl", "/en": "en", "/de": "de" }` (line 305). -/
def langCmds (s : String) : Option String :=
  if s = "/nl" then some "nl"
  else if s = "/en" then some "en"
  else if s = "/de" then some "de"
  else none

/-- The language-set confirmation (lines 316-321). -/
def langConfirm (code : String) : String :=
  if code = "nl" then "✅ Top, we praten Nederlands. Waar zit je hoofd nu het meeste mee?"
  else if code = "de" then "✅ Super, wir sprechen Deutsch. Woran denkst du gerade am meisten?"
  else "✅ Nice, we’ll talk in English. What’s on your mind right now?"

/-- The fields of one inbound webhook message event that the handler
reads: `msg.id`, `msg.from` and `msg.text?.body`. -/
structure InMsg where
  id : Option String
  fromId : Option String
  textBody : Option String
deriving DecidableEq

/-- The durable state shared by all inbound deliveries: the `threads`
table and the `seen_messages` ledger. -/
structure St where
  threads : ThreadsTable
  seen : List String
deriving DecidableEq

/-- The result of handling one inbound event: the state left behind, the
trace of externally visible effects, and the error swallowed by the
handler's top-level `catch` (which only logs), if any. -/
structure Outcome where
  st : St
  trace : List Effect
  caught : Option String
deriving DecidableEq

/-- Lines 276-328: the handler body after the dedup gate — extract
`waId`/`text`, interpret commands, or forward to `lothisReply` and send
the reply.  Returns the threads table, the effect trace and the error
propagated to the top-level `catch`, if any. -/
def handleAdmitted (env : RemoteEnv) (threads : ThreadsTable) (m : InMsg)
    (now : Nat) : ThreadsTable × List Effect × Option String :=
  match jsOrNull m.fromId with
  | none => (threads, [], none)
  | some u =>
    let lang := jsOrNull ((getLanguage threads u).bind (fun x => x))
    match jsOrNull (m.textBody.map jsTrim) with
    | none =>
      (threads,
       [Effect.sendText u (if lang = some "nl" then "Stuur me even tekst 🙂"
                           else "Please send text 🙂")], none)
    | some t =>
      if t = "/start" ∨ jsToLower t = "start" then
        (threads, [Effect.sendText u (helpText lang)], none)
      else if t = "/lang" then
        (threads, [Effect.sendText u (langPrompt lang)], none)
      else
        match langCmds (jsToLower t) with
        | some code =>
          if jsTruthy ((getThread threads u).bind (fun r => r.thread_id)) then
            (setLanguage threads code u, [Effect.sendText u (langConfirm code)], none)
          else
            match openaiCreateThread env with
            | .error e => (threads, [Effect.createThread], some e)
            | .ok tid =>
              match upsertThread threads u (some tid) (some code) now with
              | .error e => (threads, [Effect.createThread], some e)
              | .ok t2 =>
                (t2, [Effect.createThread, Effect.sendText u (langConfirm code)], none)
        | none =>
          let r := lothisReply env threads u t now
          match r.out with
          | .error e => (r.threads, r.trace, some e)
          | .ok reply => (r.threads, r.trace ++ [Effect.sendText u reply], none)

/-- `handleInboundMessage`: the webhook POST body for one extracted
message event (lines 269-331) — the dedup gate (`seenMsg` check then
`markSeen`, both skipped for a falsy `msg.id`) in front of
`handleAdmitted`. -/
def handleInbound (env : RemoteEnv) (st : St) (m : InMsg) (now : Nat) : Outcome :=
  match jsOrNull m.id with
  | some d =>
    if seenMsg st.seen d then { st := st, trace := [], caught := none }
    else
      match markSeen st.seen d with
      | .error e => { st := st, trace := [], caught := some e }
      | .ok seen2 =>
        let r := handleAdmitted env st.threads m now
        { st := { threads := r.1, seen := seen2 }, trace := r.2.1, caught := r.2.2 }
  | none =>
    let r := handleAdmitted env st.threads m now
    { st := { threads := r.1, seen := st.seen }, trace := r.2.1, caught := r.2.2 }

/-! ### Auxiliary definitions used by the theorems below -/

/-- The statuses the polling loop (lines 187-189) treats as terminal. -/
def runTerminal (s : String) : Bool :=
  s == "completed" || s == "failed" || s == "cancelled" || s == "expired"

/-- Spec-side formulation of "the in-order concatenation of the
text-bearing content segments" of a message, for comparison with the
source's accumulator loop `segmentsConcat`: a text-bearing segment is a
block of type `"text"` carrying a truthy `text.value`. -/
def textSegment (b : ContentBlock) : Option String :=
  if b.type = "text" then
    match b.textValue with
    | some v => if v = "" then none else some v
    | none => none
  else none

/-- Spec-side recursion for the segment concatenation. -/
def specConcat : List ContentBlock → String
  | [] => ""
  | b :: bs => (textSegment b).getD "" ++ specConcat bs

/-- Every stored session row has a non-null conversation handle. -/
def threadsOk (tbl : ThreadsTable) : Bool :=
  tbl.all (fun r => r.thread_id.isSome)

/-- Test fixture: a remote message list whose newest assistant message
says `pong`. -/
def pongMsgs : List RemoteMsg := [⟨"assistant", some [⟨"text", some "pong"⟩]⟩]

/-- Test fixture: a remote environment answering every operation
successfully. -/
def envOk : RemoteEnv :=
  { createThreadRes := .ok "T1"
    addMessageRes := fun _ _ => .ok ()
    runRes := fun _ _ => .ok "R1"
    pollRes := fun _ => .ok "completed"
    pollFuel := 3
    msgsRes := fun _ => .ok pongMsgs }

/-- Test fixture: the thread-creation endpoint answers with a server
error. -/
def envDown : RemoteEnv := { envOk with createThreadRes := .error "500 boom" }

/-- Test fixture: every status query of the run answers `in_progress`,
so no terminal status is observed within the budget. -/
def envStalled : RemoteEnv := { envOk with pollRes := fun _ => .ok "in_progress" }

/-! ## Theorems -/

/-! ### Shared helper lemmas about the store -/

theorem getThread_chat_id {tbl : ThreadsTable} {chatId : String} {row : ThreadRow}
    (h : getThread tbl chatId = some row) : row.chat_id = chatId := by
  have := List.find?_some h
  simpa using this

theorem getThread_map (tbl : ThreadsTable) (chatId : String) (f : ThreadRow → ThreadRow)
    (hf : ∀ r, (f r).chat_id = r.chat_id) :
    getThread (tbl.map f) chatId = (getThread tbl chatId).map f := by
  unfold getThread
  have hp : ((fun r : ThreadRow => r.chat_id == chatId) ∘ f) =
      (fun r : ThreadRow => r.chat_id == chatId) := by
    funext r
    simp [Function.comp, hf]
  rw [List.find?_map, hp]

theorem getThread_append_of_none {tbl : ThreadsTable} {chatId : String}
    (h : getThread tbl chatId = none) (r : ThreadRow) :
    getThread (tbl ++ [r]) chatId = if r.chat_id == chatId then some r else none := by
  unfold getThread at h ⊢
  rw [List.find?_append, h]
  cases hb : (r.chat_id == chatId) <;> simp [List.find?, hb, Option.orElse]

/-! ### C1 — upsert with a partial row -/

/-- C1 counterexample: upserting `(handle := null, language := "en")` over
the existing row `("abc", null)` does not yield the merged row
`("abc", "en")`; the statement aborts with the NOT NULL constraint error
on `threads.thread_id` (the `DO UPDATE` sets
`thread_id = excluded.thread_id`, i.e. NULL, unconditionally). -/
theorem c1_counterexample :
    upsertThread [⟨"U1", some "abc", none, 0⟩] "U1" none (some "en") 5 =
      Except.error "NOT NULL constraint failed: threads.thread_id" ∧
    upsertThread [⟨"U1", some "abc", none, 0⟩] "U1" none (some "en") 5 ≠
      Except.ok [⟨"U1", some "abc", some "en", 5⟩] := by
  refine ⟨rfl, fun h => ?_⟩
  rw [show upsertThread [⟨"U1", some "abc", none, 0⟩] "U1" none (some "en") 5 =
    Except.error "NOT NULL constraint failed: threads.thread_id" from rfl] at h
  exact Except.noConfusion h

/-- C1 amended: an upsert that supplies a null conversation handle is
rejected with the NOT NULL constraint error (so an existing non-null
handle is never overwritten by null, but neither is the supplied
language applied — the whole statement aborts); and an upsert that
supplies a non-null handle together with a null language overwrites the
handle while preserving the row's existing language (the `COALESCE`). -/
theorem c1_upsert_null_handle_rejected (tbl : ThreadsTable) (chatId : String)
    (language : Option String) (now : Nat) (row : ThreadRow) (tid : String)
    (hrow : getThread tbl chatId = some row) :
    upsertThread tbl chatId none language now =
      Except.error "NOT NULL constraint failed: threads.thread_id" ∧
    ∃ tbl', upsertThread tbl chatId (some tid) none now = Except.ok tbl' ∧
      getThread tbl' chatId =
        some { row with thread_id := some tid, updated_at := now } := by
  constructor
  · rfl
  · refine ⟨_, by rw [upsertThread, hrow], ?_⟩
    rw [getThread_map _ _ _ (fun r => by dsimp; split <;> rfl), hrow]
    simp [getThread_chat_id hrow]

/-- C1 witness: the amended theorem applied to the concrete row of the
claim's example. -/
theorem c1_witness :
    getThread [⟨"U1", some "abc", none, 0⟩] "U1" = some ⟨"U1", some "abc", none, 0⟩ ∧
    (upsertThread [⟨"U1", some "abc", none, 0⟩] "U1" none (some "en") 5 =
        Except.error "NOT NULL constraint failed: threads.thread_id" ∧
      ∃ tbl', upsertThread [⟨"U1", some "abc", none, 0⟩] "U1" (some "xyz") none 5 =
          Except.ok tbl' ∧
        getThread tbl' "U1" = some ⟨"U1", some "xyz", none, 5⟩) :=
  ⟨by decide,
   c1_upsert_null_handle_rejected [⟨"U1", some "abc", none, 0⟩] "U1" (some "en") 5
     ⟨"U1", some "abc", none, 0⟩ "xyz" (by decide)⟩

/-! ### C4 — recording a delivery identifier twice -/

/-- C4 counterexample: `markSeen` is a plain `INSERT` into a table whose
`msg_id` is the primary key, so recording an identifier that is already
in the ledger raises a uniqueness constraint error — it is neither a
no-op nor silently rejected. -/
theorem c4_counterexample :
    markSeen ["D1"] "D1" = Except.error "UNIQUE constraint failed: seen_messages.msg_id" ∧
    markSeen ["D1"] "D1" ≠ Except.ok ["D1"] := by
  refine ⟨rfl, fun h => ?_⟩
  rw [show markSeen ["D1"] "D1" =
    Except.error "UNIQUE constraint failed: seen_messages.msg_id" from rfl] at h
  exact Except.noConfusion h

/-- C4 amended: recording an identifier already in the ledger raises the
primary-key uniqueness constraint error (the duplicate insert is
rejected with an exception and the ledger is left unchanged — not
corrupted, but not silent either), while recording a fresh identifier
appends exactly that identifier. -/
theorem c4_markSeen_duplicate_raises (seen : List String) (d : String) :
    (d ∈ seen →
      markSeen seen d = Except.error "UNIQUE constraint failed: seen_messages.msg_id") ∧
    (d ∉ seen → markSeen seen d = Except.ok (d :: seen)) := by
  constructor
  · intro h
    simp [markSeen, h]
  · intro h
    simp [markSeen, h]

/-- C4 witness: the amended theorem at the ledger `["D1"]`, once for the
duplicate `"D1"` and once for the fresh `"D2"`. -/
theorem c4_witness :
    markSeen ["D1"] "D1" = Except.error "UNIQUE constraint failed: seen_messages.msg_id" ∧
    markSeen ["D1"] "D2" = Except.ok ["D2", "D1"] :=
  ⟨(c4_markSeen_duplicate_raises ["D1"] "D1").1 (by decide),
   (c4_markSeen_duplicate_raises ["D1"] "D2").2 (by decide)⟩

/-! ### C5 — timeout classification and its user-visible response -/

theorem pollLoop_timeout (p : Nat → Except String String) :
    ∀ (start fuel : Nat),
      (∀ i, start ≤ i → i < start + fuel → ∃ s, p i = .ok s ∧ runTerminal s = false) →
      pollLoop p start fuel = .ok "timeout" := by
  intro start fuel
  induction fuel generalizing start with
  | zero => intro _; rfl
  | succ n ih =>
    intro h
    obtain ⟨s, hp, ht⟩ := h start (Nat.le_refl _) (by omega)
    simp only [runTerminal, Bool.or_eq_false_iff, beq_eq_false_iff_ne] at ht
    obtain ⟨⟨⟨h1, h2⟩, h3⟩, h4⟩ := ht
    simp only [pollLoop, hp]
    rw [if_neg (by simp [h1]), if_neg (by simp [h2, h3, h4])]
    exact ih (start + 1) (fun i ha hb => h i (by omega) (by omega))

/-- C5: when no status query within the wall-clock budget observes a
terminal status, `openaiPollRun` returns the local `"timeout"`
classification as a value (it does not throw); and the orchestrator's
post-poll response (`lothisAfterPoll`, lines 231-238 of the source) for
`"timeout"` is byte-identical to its response for `"failed"`,
`"cancelled"` and `"expired"`. -/
theorem c5_timeout_response (env : RemoteEnv)
    (h : ∀ i, i < env.pollFuel → ∃ s, env.pollRes i = .ok s ∧ runTerminal s = false) :
    openaiPollRun env = Except.ok "timeout" ∧
    ∀ (e : RemoteEnv) (threadId : String) (lang : Option String)
      (threads : ThreadsTable) (trace : List Effect),
      lothisAfterPoll e threadId lang threads trace "timeout" =
        lothisAfterPoll e threadId lang threads trace "failed" ∧
      lothisAfterPoll e threadId lang threads trace "timeout" =
        lothisAfterPoll e threadId lang threads trace "cancelled" ∧
      lothisAfterPoll e threadId lang threads trace "timeout" =
        lothisAfterPoll e threadId lang threads trace "expired" := by
  constructor
  · exact pollLoop_timeout env.pollRes 0 env.pollFuel
      (fun i _ h2 => h i (by omega))
  · intro e threadId lang threads trace
    exact ⟨rfl, rfl, rfl⟩

/-- C5 witness: in the stalled environment every status query answers the
non-terminal `in_progress`, and the theorem's conclusions hold there. -/
theorem c5_witness :
    (∀ i, i < envStalled.pollFuel →
      envStalled.pollRes i = Except.ok "in_progress" ∧ runTerminal "in_progress" = false) ∧
    (openaiPollRun envStalled = Except.ok "timeout" ∧
     ∀ (e : RemoteEnv) (threadId : String) (lang : Option String)
       (threads : ThreadsTable) (trace : List Effect),
       lothisAfterPoll e threadId lang threads trace "timeout" =
         lothisAfterPoll e threadId lang threads trace "failed" ∧
       lothisAfterPoll e threadId lang threads trace "timeout" =
         lothisAfterPoll e threadId lang threads trace "cancelled" ∧
       lothisAfterPoll e threadId lang threads trace "timeout" =
         lothisAfterPoll e threadId lang threads trace "expired") :=
  ⟨fun _ _ => ⟨rfl, by decide⟩,
   c5_timeout_response envStalled (fun i _ => ⟨"in_progress", rfl, by decide⟩)⟩

/-! ### C6 — fetching the latest assistant reply -/

theorem segmentsConcat_go (bs : List ContentBlock) :
    ∀ acc : String,
      bs.foldl (fun out b =>
        if b.type == "text" && jsTruthy b.textValue then out ++ b.textValue.getD ""
        else out) acc = acc ++ specConcat bs := by
  induction bs with
  | nil => intro acc; simp [specConcat, String.append_empty]
  | cons b bs ih =>
    intro acc
    simp only [List.foldl_cons, specConcat, ih]
    by_cases hty : b.type = "text"
    · cases hv : b.textValue with
      | none => simp [hty, hv, textSegment, jsTruthy, String.empty_append]
      | some v =>
        by_cases hv' : v = ""
        · simp [hty, hv, hv', textSegment, jsTruthy, String.empty_append]
        · simp [hty, hv, hv', textSegment, jsTruthy, String.append_assoc]
    · simp [hty, textSegment, String.empty_append]

theorem segmentsConcat_eq_specConcat (bs : List ContentBlock) :
    segmentsConcat bs = specConcat bs := by
  simpa [segmentsConcat, String.empty_append] using segmentsConcat_go bs ""

/-- C6 counterexample: on a conversation whose newest assistant message
has the single text segment `"hi "`, the in-order concatenation of the
text-bearing segments is `"hi "`, but `openaiGetLastAssistantText`
returns the trimmed `"hi"` (line 211 of the source applies `.trim()`),
so the function does not return exactly that concatenation. -/
theorem c6_counterexample :
    openaiGetLastAssistantText [⟨"assistant", some [⟨"text", some "hi "⟩]⟩] = "hi" ∧
    specConcat [⟨"text", some "hi "⟩] = "hi " ∧
    openaiGetLastAssistantText [⟨"assistant", some [⟨"text", some "hi "⟩]⟩] ≠
      specConcat [⟨"text", some "hi "⟩] :=
  ⟨by decide, by decide, by decide⟩

/-- C6 amended: `openaiGetLastAssistantText` returns the
whitespace-trimmed in-order concatenation of the text-bearing content
segments of the single most recent assistant-authored message of the
returned window, and returns `""` (not an error) when no
assistant-authored message is present. -/
theorem c6_fetchLatestReply (msgs : List RemoteMsg) :
    ((∀ m ∈ msgs, m.role ≠ "assistant") → openaiGetLastAssistantText msgs = "") ∧
    (∀ m blocks, msgs.find? (fun x => x.role == "assistant") = some m →
      m.content = some blocks →
      openaiGetLastAssistantText msgs = jsTrim (specConcat blocks)) := by
  constructor
  · intro h
    have hfind : msgs.find? (fun x => x.role == "assistant") = none := by
      rw [List.find?_eq_none]
      intro x hx
      simp [h x hx]
    simp [openaiGetLastAssistantText, hfind]
  · intro m blocks hfind hcontent
    simp [openaiGetLastAssistantText, hfind, hcontent, segmentsConcat_eq_specConcat]

/-- C6 witness: the amended theorem at a window with no assistant
message, and at the `"hi "` window of the counterexample. -/
theorem c6_witness :
    openaiGetLastAssistantText [⟨"user", none⟩] = "" ∧
    openaiGetLastAssistantText [⟨"assistant", some [⟨"text", some "hi "⟩]⟩] =
      jsTrim (specConcat [⟨"text", some "hi "⟩]) :=
  ⟨(c6_fetchLatestReply [⟨"user", none⟩]).1 (by decide),
   (c6_fetchLatestReply [⟨"assistant", some [⟨"text", some "hi "⟩]⟩]).2
     ⟨"assistant", some [⟨"text", some "hi "⟩]⟩ [⟨"text", some "hi "⟩] (by decide) rfl⟩

/-! ### C2 — at-most-once handling per delivery identifier -/

/-- C2: the dedup gate runs before any externally visible side effect,
so handling an event that carries a (truthy) delivery identifier a
second time — under any remote environment and at any later time — is a
complete no-op: unchanged state, no effect (no remote call and no
outbound reply), nothing thrown.  An event whose identifier is absent
(falsy) skips the gate entirely: its processing leaves the ledger
untouched and its trace is exactly the trace of the post-gate handler,
i.e. dedup is disabled for it. -/
theorem handleInbound_seen (env : RemoteEnv) (st : St) (m : InMsg) (now : Nat) (d : String)
    (hd : jsOrNull m.id = some d) (hs : seenMsg st.seen d = true) :
    handleInbound env st m now = { st := st, trace := [], caught := none } := by
  simp only [handleInbound, hd]
  rw [if_pos hs]

theorem c2_dedup (env env2 : RemoteEnv) (st : St) (m : InMsg) (now now2 : Nat) :
    (∀ d, jsOrNull m.id = some d →
      handleInbound env2 (handleInbound env st m now).st m now2 =
        { st := (handleInbound env st m now).st, trace := [], caught := none }) ∧
    (jsOrNull m.id = none →
      (handleInbound env st m now).st.seen = st.seen ∧
      (handleInbound env st m now).trace = (handleAdmitted env st.threads m now).2.1) := by
  constructor
  · intro d hd
    have hmem : seenMsg (handleInbound env st m now).st.seen d = true := by
      unfold handleInbound
      rw [hd]
      by_cases hseen : seenMsg st.seen d
      · simp [hseen]
      · have hseen' : d ∉ st.seen := by simpa [seenMsg] using hseen
        have hms : markSeen st.seen d = .ok (d :: st.seen) := by
          simp [markSeen, hseen']
        simp [hseen, hms, seenMsg, hseen']
    exact handleInbound_seen env2 _ m now2 d hd hmem
  · intro h0
    simp [handleInbound, h0]

/-- C2 witness: redelivering the same `"D1"` event after it was handled
once is a no-op. -/
theorem c2_witness :
    handleInbound envOk (handleInbound envOk ⟨[], []⟩ ⟨some "D1", some "U1", some "hello"⟩ 0).st
        ⟨some "D1", some "U1", some "hello"⟩ 1 =
      { st := (handleInbound envOk ⟨[], []⟩ ⟨some "D1", some "U1", some "hello"⟩ 0).st,
        trace := [], caught := none } :=
  (c2_dedup envOk envOk ⟨[], []⟩ ⟨some "D1", some "U1", some "hello"⟩ 0 1).1 "D1" (by decide)

/-! ### Trace-shape lemmas for `lothisReply` -/

theorem lothisAfterPoll_trace {env : RemoteEnv} {tid : String} {lang : Option String}
    {threads : ThreadsTable} {trace : List Effect} {status : String} {e : Effect}
    (he : e ∈ (lothisAfterPoll env tid lang threads trace status).trace) :
    e ∈ trace ∨ e = Effect.fetchMessages tid := by
  unfold lothisAfterPoll at he
  split at he
  · exact Or.inl he
  · split at he <;> simpa using he

theorem lothisAfterPoll_mono {env : RemoteEnv} {tid : String} {lang : Option String}
    {threads : ThreadsTable} {trace : List Effect} {status : String} {e : Effect}
    (he : e ∈ trace) :
    e ∈ (lothisAfterPoll env tid lang threads trace status).trace := by
  unfold lothisAfterPoll
  split
  · exact he
  · split <;> simp [he]

theorem lothisAfterRun_trace {env : RemoteEnv} {tid : String} {lang : Option String}
    {threads : ThreadsTable} {trace : List Effect} {runId : String} {e : Effect}
    (he : e ∈ (lothisAfterRun env tid lang threads trace runId).trace) :
    e ∈ trace ∨ e = Effect.pollRun tid runId ∨ e = Effect.fetchMessages tid := by
  unfold lothisAfterRun at he
  split at he
  · have := by simpa using he
    tauto
  · rcases lothisAfterPoll_trace he with h | h
    · have := by simpa using h
      tauto
    · exact Or.inr (Or.inr h)

theorem lothisAfterRun_mono {env : RemoteEnv} {tid : String} {lang : Option String}
    {threads : ThreadsTable} {trace : List Effect} {runId : String} {e : Effect}
    (he : e ∈ trace) :
    e ∈ (lothisAfterRun env tid lang threads trace runId).trace := by
  unfold lothisAfterRun
  split
  · simp [he]
  · exact lothisAfterPoll_mono (by simp [he])

theorem lothisWithThread_trace {env : RemoteEnv} {threads : ThreadsTable}
    {chatId userText tid : String} {elang : Option String} {trace0 : List Effect} {e : Effect}
    (he : e ∈ (lothisWithThread env threads chatId userText tid elang trace0).trace) :
    e ∈ trace0 ∨
    e = Effect.appendMessage tid (contentFor (effectiveLang threads chatId elang) userText) ∨
    e = Effect.startRun tid (effectiveLang threads chatId elang) ∨
    (∃ rid, e = Effect.pollRun tid rid) ∨ e = Effect.fetchMessages tid := by
  simp only [lothisWithThread] at he
  split at he
  · simp only [List.mem_append, List.mem_singleton] at he
    tauto
  · split at he
    · simp only [List.mem_append, List.mem_singleton] at he
      tauto
    · rcases lothisAfterRun_trace he with h | h | h
      · simp only [List.mem_append, List.mem_singleton] at h
        tauto
      · exact Or.inr (Or.inr (Or.inr (Or.inl ⟨_, h⟩)))
      · tauto

theorem lothisWithThread_append_mem (env : RemoteEnv) (threads : ThreadsTable)
    (chatId userText tid : String) (elang : Option String) (trace0 : List Effect) :
    Effect.appendMessage tid (contentFor (effectiveLang threads chatId elang) userText) ∈
      (lothisWithThread env threads chatId userText tid elang trace0).trace := by
  simp only [lothisWithThread]
  split
  · simp
  · split
    · simp
    · exact lothisAfterRun_mono (by simp)

theorem lothisReply_no_send (env : RemoteEnv) (threads : ThreadsTable)
    (chatId userText : String) (now : Nat) (u b : String) :
    Effect.sendText u b ∉ (lothisReply env threads chatId userText now).trace := by
  intro hmem
  simp only [lothisReply] at hmem
  split at hmem
  · rcases lothisWithThread_trace hmem with h | h | h | h | h <;> simp_all
  · split at hmem
    · simp at hmem
    · split at hmem
      · simp at hmem
      · rcases lothisWithThread_trace hmem with h | h | h | h | h <;> simp_all

/-! ### C3 — no apology is sent when the remote service is unavailable -/

/-- C3 counterexample: with the remote thread-creation endpoint failing
(a `RemoteUnavailable` condition), handling an inbound message aborts
and the top-level `catch` (line 329-331) swallows the error after only
logging it — the trace shows the failed remote call and NO outbound
send: no static apology message reaches the user, contrary to the
claim. -/
theorem c3_counterexample :
    handleInbound envDown ⟨[], []⟩ ⟨some "D1", some "U1", some "hello"⟩ 0 =
      { st := ⟨[], ["D1"]⟩, trace := [Effect.createThread],
        caught := some "Create thread failed: 500 boom" } := by decide

theorem handleAdmitted_error_shape (env : RemoteEnv) (threads : ThreadsTable)
    (m : InMsg) (now : Nat) :
    (handleAdmitted env threads m now).2.2 = none ∨
    (∀ u b, Effect.sendText u b ∉ (handleAdmitted env threads m now).2.1) := by
  simp only [handleAdmitted]
  split
  · exact Or.inl rfl
  · split
    · exact Or.inl rfl
    · split
      · exact Or.inl rfl
      · split
        · exact Or.inl rfl
        · split
          · split
            · exact Or.inl rfl
            · split
              · exact Or.inr (by intro u b hb; simp at hb)
              · split
                · exact Or.inr (by intro u b hb; simp at hb)
                · exact Or.inl rfl
          · split
            · exact Or.inr (fun u b hb => lothisReply_no_send _ _ _ _ _ u b hb)
            · exact Or.inl rfl

/-- C3 amended: a non-success remote response at any of the four remote
operations aborts the handling of that inbound message; the orchestrator
catches the thrown error at the top level (and only logs it) — but no
message, in particular no static apology, is sent to the user on this
path.  (The static apology of lines 231-235 is produced only for a run
that resolves to a non-success status without throwing.) -/
theorem c3_remote_error_no_apology (env : RemoteEnv) (st : St) (m : InMsg) (now : Nat)
    (h : (handleInbound env st m now).caught ≠ none) :
    ∀ u b, Effect.sendText u b ∉ (handleInbound env st m now).trace := by
  intro u b hb
  cases hid : jsOrNull m.id with
  | none =>
    simp only [handleInbound, hid] at h hb
    rcases handleAdmitted_error_shape env st.threads m now with hs | hs
    · exact h hs
    · exact hs u b hb
  | some d =>
    simp only [handleInbound, hid] at h hb
    by_cases hseen : seenMsg st.seen d = true
    · rw [if_pos hseen] at hb
      simp at hb
    · rw [if_neg hseen] at h hb
      cases hms : markSeen st.seen d with
      | error e =>
        simp only [hms] at hb
        simp at hb
      | ok s2 =>
        simp only [hms] at h hb
        rcases handleAdmitted_error_shape env st.threads m now with hs | hs
        · exact h (by simp [hs])
        · exact hs u b hb

/-- C3 witness: the amended theorem at the concrete failing environment
of the counterexample. -/
theorem c3_witness :
    (handleInbound envDown ⟨[], []⟩ ⟨some "D1", some "U1", some "hello"⟩ 0).caught ≠ none ∧
    ∀ u b, Effect.sendText u b ∉
      (handleInbound envDown ⟨[], []⟩ ⟨some "D1", some "U1", some "hello"⟩ 0).trace :=
  ⟨by decide,
   c3_remote_error_no_apology envDown ⟨[], []⟩ ⟨some "D1", some "U1", some "hello"⟩ 0 (by decide)⟩

/-! ### C7 — language tag on content and language instruction on the run -/

theorem lothisWithThread_run_mem (env : RemoteEnv) (threads : ThreadsTable)
    (chatId userText tid : String) (elang : Option String) (trace0 : List Effect)
    (h : env.addMessageRes tid (contentFor (effectiveLang threads chatId elang) userText) =
      Except.ok ()) :
    Effect.startRun tid (effectiveLang threads chatId elang) ∈
      (lothisWithThread env threads chatId userText tid elang trace0).trace := by
  simp only [lothisWithThread, openaiAddUserMessage, h]
  split
  · simp
  · exact lothisAfterRun_mono (by simp)

theorem lothisReply_existing_thread (env : RemoteEnv) (threads : ThreadsTable)
    (chatId text : String) (now : Nat) (row : ThreadRow) (tid : String)
    (hrow : getThread threads chatId = some row)
    (htid : row.thread_id = some tid) (htid' : tid ≠ "") :
    lothisReply env threads chatId text now =
      lothisWithThread env threads chatId text tid (jsOrNull row.language) [] := by
  simp only [lothisReply, hrow, Option.bind]
  rw [show jsOrNull row.thread_id = some tid from by
    simp [htid, jsOrNull, jsTruthy, htid']]

/-- C7: for a passthrough message from a chat whose session row exists
(with a usable conversation handle): when the stored language is
`"nl"`, every content handed to the append operation is the user text
prefixed with the `[LANG:nl]` tag, such an append is in fact attempted,
and every run started carries `language = "nl"` (the body of the run
request then attaches the language instruction, line 163); when the
stored language is null, the appended content is the raw text and any
run started carries no language. -/
theorem c7_language_tagging (env : RemoteEnv) (threads : ThreadsTable)
    (chatId text : String) (now : Nat) (row : ThreadRow) (tid : String)
    (hrow : getThread threads chatId = some row)
    (htid : row.thread_id = some tid) (htid' : tid ≠ "") :
    (row.language = some "nl" →
      Effect.appendMessage tid ("[LANG:nl] " ++ text) ∈
        (lothisReply env threads chatId text now).trace ∧
      (∀ t l, Effect.startRun t l ∈ (lothisReply env threads chatId text now).trace →
        t = tid ∧ l = some "nl") ∧
      (env.addMessageRes tid ("[LANG:nl] " ++ text) = Except.ok () →
        Effect.startRun tid (some "nl") ∈ (lothisReply env threads chatId text now).trace)) ∧
    (row.language = none →
      Effect.appendMessage tid text ∈ (lothisReply env threads chatId text now).trace ∧
      (∀ t l, Effect.startRun t l ∈ (lothisReply env threads chatId text now).trace →
        t = tid ∧ l = none)) := by
  have hred := lothisReply_existing_thread env threads chatId text now row tid hrow htid htid'
  constructor
  · intro hl
    rw [hl] at hred
    have heff : effectiveLang threads chatId (jsOrNull (some "nl")) = some "nl" := by
      simp [jsOrNull, jsTruthy, effectiveLang]
    refine ⟨?_, ?_, ?_⟩
    · rw [hred]
      have := lothisWithThread_append_mem env threads chatId text tid (jsOrNull (some "nl")) []
      rw [heff] at this
      exact this
    · intro t l hm
      rw [hred] at hm
      rcases lothisWithThread_trace hm with h | h | h | h | h
      · simp at h
      · rw [heff] at h
        simp at h
      · rw [heff] at h
        simp at h
        exact h
      · obtain ⟨rid, h⟩ := h
        simp at h
      · simp at h
    · intro hok
      rw [hred]
      have := lothisWithThread_run_mem env threads chatId text tid (jsOrNull (some "nl")) []
        (by rw [heff]; exact hok)
      rw [heff] at this
      exact this
  · intro hl
    rw [hl] at hred
    have heff : effectiveLang threads chatId (jsOrNull none) = none := by
      simp [effectiveLang, getLanguage, hrow, hl, jsOrNull, jsTruthy]
    constructor
    · rw [hred]
      have := lothisWithThread_append_mem env threads chatId text tid (jsOrNull none) []
      rw [heff] at this
      exact this
    · intro t l hm
      rw [hred] at hm
      rcases lothisWithThread_trace hm with h | h | h | h | h
      · simp at h
      · rw [heff] at h
        simp at h
      · rw [heff] at h
        simp at h
        exact h
      · obtain ⟨rid, h⟩ := h
        simp at h
      · simp at h

/-- C7 witness: the session row `("U1", "T1", "nl")` with the message
`hello`. -/
theorem c7_witness :
    getThread [⟨"U1", some "T1", some "nl", 0⟩] "U1" = some ⟨"U1", some "T1", some "nl", 0⟩ ∧
    (Effect.appendMessage "T1" ("[LANG:nl] " ++ "hello") ∈
      (lothisReply envOk [⟨"U1", some "T1", some "nl", 0⟩] "U1" "hello" 9).trace ∧
     (∀ t l, Effect.startRun t l ∈
        (lothisReply envOk [⟨"U1", some "T1", some "nl", 0⟩] "U1" "hello" 9).trace →
        t = "T1" ∧ l = some "nl") ∧
     (envOk.addMessageRes "T1" ("[LANG:nl] " ++ "hello") = Except.ok () →
       Effect.startRun "T1" (some "nl") ∈
         (lothisReply envOk [⟨"U1", some "T1", some "nl", 0⟩] "U1" "hello" 9).trace)) :=
  ⟨by decide,
   (c7_language_tagging envOk [⟨"U1", some "T1", some "nl", 0⟩] "U1" "hello" 9
     ⟨"U1", some "T1", some "nl", 0⟩ "T1" (by decide) rfl (by decide)).1 rfl⟩

/-! ### C8 — the language-set command -/

theorem handleInbound_admitted (env : RemoteEnv) (st : St) (m : InMsg) (now : Nat)
    (h : ∀ d, jsOrNull m.id = some d → seenMsg st.seen d = false) :
    (handleInbound env st m now).st.threads = (handleAdmitted env st.threads m now).1 ∧
    (handleInbound env st m now).trace = (handleAdmitted env st.threads m now).2.1 ∧
    (handleInbound env st m now).caught = (handleAdmitted env st.threads m now).2.2 := by
  cases hid : jsOrNull m.id with
  | none => simp [handleInbound, hid]
  | some d =>
    have hs := h d hid
    have hd : d ∉ st.seen := by simpa [seenMsg] using hs
    have hms : markSeen st.seen d = .ok (d :: st.seen) := by simp [markSeen, hd]
    simp [handleInbound, hid, hs, hms]

theorem langCmds_cmd_shape {t code : String} (h : langCmds (jsToLower t) = some code) :
    t ≠ "" ∧ t ≠ "/start" ∧ jsToLower t ≠ "start" ∧ t ≠ "/lang" := by
  refine ⟨?_, ?_, ?_, ?_⟩
  · rintro rfl
    rw [show langCmds (jsToLower "") = none from rfl] at h
    exact Option.noConfusion h
  · rintro rfl
    rw [show langCmds (jsToLower "/start") = none from rfl] at h
    exact Option.noConfusion h
  · intro he
    rw [he] at h
    rw [show langCmds "start" = none from rfl] at h
    exact Option.noConfusion h
  · rintro rfl
    rw [show langCmds (jsToLower "/lang") = none from rfl] at h
    exact Option.noConfusion h

theorem handleAdmitted_langCmd (env : RemoteEnv) (threads : ThreadsTable)
    (m : InMsg) (now : Nat) (u t0 code : String)
    (hu : jsOrNull m.fromId = some u)
    (ht : m.textBody = some t0)
    (hcmd : langCmds (jsToLower (jsTrim t0)) = some code) :
    handleAdmitted env threads m now =
      (if jsTruthy ((getThread threads u).bind fun r => r.thread_id) then
        (setLanguage threads code u, [Effect.sendText u (langConfirm code)], none)
      else
        match openaiCreateThread env with
        | .error e => (threads, [Effect.createThread], some e)
        | .ok tid =>
          match upsertThread threads u (some tid) (some code) now with
          | .error e => (threads, [Effect.createThread], some e)
          | .ok t2 =>
            (t2, [Effect.createThread, Effect.sendText u (langConfirm code)], none)) := by
  obtain ⟨hne, hstart, hlow, hlang⟩ := langCmds_cmd_shape hcmd
  have hjs : jsOrNull (some (jsTrim t0)) = some (jsTrim t0) := by
    simp [jsOrNull, jsTruthy, hne]
  simp only [handleAdmitted, hu, ht, Option.map, hjs]
  rw [if_neg (not_or.mpr ⟨hstart, hlow⟩), if_neg hlang]
  simp only [hcmd]

/-- C8: for an inbound event (not a duplicate delivery) whose trimmed
text is, case-insensitively, one of the fixed language commands mapped
to `code`: no remote run is started and no content is appended; if a
session with a usable handle exists, the language is overwritten to
`code` (the handle untouched, no remote conversation created) and the
static confirmation in that language is the only outbound message; if
no session exists (and the remote create succeeds), exactly one remote
conversation is created and the session row ends up with the new handle
and language `code`, again followed by the static confirmation. -/
theorem c8_language_command (env : RemoteEnv) (st : St) (m : InMsg) (now : Nat)
    (u t0 code : String)
    (hu : jsOrNull m.fromId = some u)
    (ht : m.textBody = some t0)
    (hcmd : langCmds (jsToLower (jsTrim t0)) = some code)
    (hadm : ∀ d, jsOrNull m.id = some d → seenMsg st.seen d = false) :
    (∀ t l, Effect.startRun t l ∉ (handleInbound env st m now).trace) ∧
    (∀ t c, Effect.appendMessage t c ∉ (handleInbound env st m now).trace) ∧
    (∀ row tid, getThread st.threads u = some row → row.thread_id = some tid → tid ≠ "" →
      (handleInbound env st m now).st.threads = setLanguage st.threads code u ∧
      (handleInbound env st m now).trace = [Effect.sendText u (langConfirm code)] ∧
      getThread (handleInbound env st m now).st.threads u =
        some { row with language := some code }) ∧
    (∀ tid, getThread st.threads u = none → env.createThreadRes = Except.ok tid →
      (handleInbound env st m now).trace =
        [Effect.createThread, Effect.sendText u (langConfirm code)] ∧
      getThread (handleInbound env st m now).st.threads u =
        some ⟨u, some tid, some code, now⟩) := by
  obtain ⟨hth, htr, -⟩ := handleInbound_admitted env st m now hadm
  have hba := handleAdmitted_langCmd env st.threads m now u t0 code hu ht hcmd
  refine ⟨?_, ?_, ?_, ?_⟩
  · intro t l hm
    rw [htr, hba] at hm
    split at hm
    · simp at hm
    · split at hm
      · simp at hm
      · split at hm <;> simp at hm
  · intro t c hm
    rw [htr, hba] at hm
    split at hm
    · simp at hm
    · split at hm
      · simp at hm
      · split at hm <;> simp at hm
  · intro row tid hrow htid htid'
    have htruthy : jsTruthy ((getThread st.threads u).bind fun r => r.thread_id) = true := by
      rw [hrow]
      simp [jsTruthy, htid, htid']
    have hget : getThread (setLanguage st.threads code u) u =
        some { row with language := some code } := by
      unfold setLanguage
      rw [getThread_map _ _ _ (fun r => by split <;> rfl), hrow]
      simp [getThread_chat_id hrow]
    refine ⟨?_, ?_, ?_⟩
    · rw [hth, hba, if_pos htruthy]
    · rw [htr, hba, if_pos htruthy]
    · rw [hth, hba, if_pos htruthy]
      exact hget
  · intro tid hnone hok
    have hfalse : ¬ jsTruthy ((getThread st.threads u).bind fun r => r.thread_id) = true := by
      rw [hnone]
      simp [jsTruthy]
    have hcre : openaiCreateThread env = .ok tid := by
      simp [openaiCreateThread, hok]
    have hupsert : upsertThread st.threads u (some tid) (some code) now =
        .ok (st.threads ++ [⟨u, some tid, some code, now⟩]) := by
      unfold upsertThread
      rw [hnone]
    constructor
    · rw [htr, hba, if_neg hfalse]
      simp only [hcre, hupsert]
    · rw [hth, hba, if_neg hfalse]
      simp only [hcre, hupsert]
      rw [getThread_append_of_none hnone]
      simp

/-- C8 witness: the spec's end-to-end scenario — `/en` from the fresh
identity `U1` with delivery id `D1`: a session is created with language
`"en"`, the static English confirmation is the only send, and no run is
started. -/
theorem c8_witness :
    (∀ t l, Effect.startRun t l ∉
      (handleInbound envOk ⟨[], []⟩ ⟨some "D1", some "U1", some "/en"⟩ 7).trace) ∧
    (handleInbound envOk ⟨[], []⟩ ⟨some "D1", some "U1", some "/en"⟩ 7).trace =
      [Effect.createThread, Effect.sendText "U1" (langConfirm "en")] ∧
    getThread (handleInbound envOk ⟨[], []⟩ ⟨some "D1", some "U1", some "/en"⟩ 7).st.threads
        "U1" = some ⟨"U1", some "T1", some "en", 7⟩ :=
  have h := c8_language_command envOk ⟨[], []⟩ ⟨some "D1", some "U1", some "/en"⟩ 7
    "U1" "/en" "en" (by decide) rfl (by decide)
    (fun d _ => rfl)
  ⟨h.1, (h.2.2.2 "T1" (by decide) rfl).1, (h.2.2.2 "T1" (by decide) rfl).2⟩

/-! ### C9 — which commands match case-insensitively -/

theorem lothisReply_append_raw (env : RemoteEnv) (threads : ThreadsTable)
    (u t : String) (now : Nat) (row : ThreadRow) (tid : String)
    (hrow : getThread threads u = some row) (htid : row.thread_id = some tid)
    (htid' : tid ≠ "") (hlnone : row.language = none) :
    Effect.appendMessage tid t ∈ (lothisReply env threads u t now).trace := by
  rw [lothisReply_existing_thread env threads u t now row tid hrow htid htid']
  have heff : effectiveLang threads u (jsOrNull row.language) = none := by
    rw [hlnone]
    simp [effectiveLang, getLanguage, hrow, hlnone, jsOrNull, jsTruthy]
  have hm := lothisWithThread_append_mem env threads u t tid (jsOrNull row.language) []
  rw [heff] at hm
  exact hm

theorem handleAdmitted_passthrough (env : RemoteEnv) (threads : ThreadsTable)
    (m : InMsg) (now : Nat) (u t0 : String)
    (hu : jsOrNull m.fromId = some u) (ht : m.textBody = some t0)
    (hne : jsTrim t0 ≠ "") (hstart : jsTrim t0 ≠ "/start")
    (hlow : jsToLower (jsTrim t0) ≠ "start") (hlang : jsTrim t0 ≠ "/lang")
    (hcmd : langCmds (jsToLower (jsTrim t0)) = none) :
    handleAdmitted env threads m now =
      (match (lothisReply env threads u (jsTrim t0) now).out with
       | .error e =>
         ((lothisReply env threads u (jsTrim t0) now).threads,
          (lothisReply env threads u (jsTrim t0) now).trace, some e)
       | .ok reply =>
         ((lothisReply env threads u (jsTrim t0) now).threads,
          (lothisReply env threads u (jsTrim t0) now).trace ++ [Effect.sendText u reply],
          none)) := by
  have hjs : jsOrNull (some (jsTrim t0)) = some (jsTrim t0) := by
    simp [jsOrNull, jsTruthy, hne]
  simp only [handleAdmitted, hu, ht, Option.map, hjs]
  rw [if_neg (not_or.mpr ⟨hstart, hlow⟩), if_neg hlang]
  simp only [hcmd]

/-- C9: with an established session (handle present, no stored
language): any casing of `/nl` (via `text.toLowerCase()`) sets the
language to `"nl"` and sends only the confirmation; any casing of
`start` sends only the help text; the exact `/start` and `/lang` send
the help text resp. the language prompt; but the upper-case `/LANG` and
`/START` match no command and are forwarded to the remote conversation
as ordinary message content. -/
theorem c9_case_sensitivity (env : RemoteEnv) (st : St) (now : Nat) (u : String)
    (row : ThreadRow) (tid : String)
    (hune : u ≠ "")
    (hrow : getThread st.threads u = some row)
    (htid : row.thread_id = some tid) (htid' : tid ≠ "")
    (hlnone : row.language = none) :
    (∀ t code, langCmds (jsToLower (jsTrim t)) = some code →
      (handleInbound env st ⟨none, some u, some t⟩ now).trace =
        [Effect.sendText u (langConfirm code)] ∧
      getThread (handleInbound env st ⟨none, some u, some t⟩ now).st.threads u =
        some { row with language := some code }) ∧
    (∀ t, jsToLower (jsTrim t) = "start" →
      (handleInbound env st ⟨none, some u, some t⟩ now).trace =
        [Effect.sendText u (helpText none)]) ∧
    ((handleInbound env st ⟨none, some u, some "/start"⟩ now).trace =
      [Effect.sendText u (helpText none)]) ∧
    ((handleInbound env st ⟨none, some u, some "/lang"⟩ now).trace =
      [Effect.sendText u (langPrompt none)]) ∧
    (Effect.appendMessage tid "/LANG" ∈
      (handleInbound env st ⟨none, some u, some "/LANG"⟩ now).trace) ∧
    (Effect.appendMessage tid "/START" ∈
      (handleInbound env st ⟨none, some u, some "/START"⟩ now).trace) := by
  have hju : jsOrNull (some u) = some u := by simp [jsOrNull, jsTruthy, hune]
  have hl0 : jsOrNull ((getLanguage st.threads u).bind fun x => x) = none := by
    simp [getLanguage, hrow, hlnone, jsOrNull, jsTruthy]
  have htruthy : jsTruthy ((getThread st.threads u).bind fun r => r.thread_id) = true := by
    rw [hrow]
    simp [jsTruthy, htid, htid']
  refine ⟨?_, ?_, ?_, ?_, ?_, ?_⟩
  · intro t code hcmd
    have hba := handleAdmitted_langCmd env st.threads ⟨none, some u, some t⟩ now u t code
      hju rfl hcmd
    constructor
    · show (handleAdmitted env st.threads ⟨none, some u, some t⟩ now).2.1 = _
      rw [hba, if_pos htruthy]
    · show getThread (handleAdmitted env st.threads ⟨none, some u, some t⟩ now).1 u = _
      rw [hba, if_pos htruthy]
      unfold setLanguage
      rw [getThread_map _ _ _ (fun r => by split <;> rfl), hrow]
      simp [getThread_chat_id hrow]
  · intro t h
    have hne : jsTrim t ≠ "" := by
      intro h0
      rw [h0] at h
      exact absurd h (by decide)
    have hjt : jsOrNull (some (jsTrim t)) = some (jsTrim t) := by
      simp [jsOrNull, jsTruthy, hne]
    show (handleAdmitted env st.threads ⟨none, some u, some t⟩ now).2.1 = _
    simp only [handleAdmitted, hju, Option.map, hjt]
    rw [if_pos (Or.inr h), hl0]
  · show (handleAdmitted env st.threads ⟨none, some u, some "/start"⟩ now).2.1 = _
    simp only [handleAdmitted, hju, Option.map,
      show jsOrNull (some (jsTrim "/start")) = some "/start" from by decide]
    rw [if_pos (Or.inl trivial), hl0]
  · show (handleAdmitted env st.threads ⟨none, some u, some "/lang"⟩ now).2.1 = _
    simp only [handleAdmitted, hju, Option.map,
      show jsOrNull (some (jsTrim "/lang")) = some "/lang" from by decide]
    rw [if_neg (by decide), if_pos trivial, hl0]
  · have hmem := lothisReply_append_raw env st.threads u "/LANG" now row tid
      hrow htid htid' hlnone
    show Effect.appendMessage tid "/LANG" ∈
      (handleAdmitted env st.threads ⟨none, some u, some "/LANG"⟩ now).2.1
    rw [handleAdmitted_passthrough env st.threads ⟨none, some u, some "/LANG"⟩ now u "/LANG"
      hju rfl (by decide) (by decide) (by decide) (by decide) (by decide)]
    rw [show jsTrim "/LANG" = "/LANG" from by decide]
    cases hout : (lothisReply env st.threads u "/LANG" now).out with
    | error e =>
      simp only [hout]
      exact hmem
    | ok reply =>
      simp only [hout]
      simp [hmem]
  · have hmem := lothisReply_append_raw env st.threads u "/START" now row tid
      hrow htid htid' hlnone
    show Effect.appendMessage tid "/START" ∈
      (handleAdmitted env st.threads ⟨none, some u, some "/START"⟩ now).2.1
    rw [handleAdmitted_passthrough env st.threads ⟨none, some u, some "/START"⟩ now u "/START"
      hju rfl (by decide) (by decide) (by decide) (by decide) (by decide)]
    rw [show jsTrim "/START" = "/START" from by decide]
    cases hout : (lothisReply env st.threads u "/START" now).out with
    | error e =>
      simp only [hout]
      exact hmem
    | ok reply =>
      simp only [hout]
      simp [hmem]

/-- C9 witness: the session `("U1", "T1", no language)`: `/NL` sets the
language, `START` shows the help text, `/LANG` is forwarded to the
remote conversation. -/
theorem c9_witness :
    (handleInbound envOk ⟨[⟨"U1", some "T1", none, 0⟩], []⟩ ⟨none, some "U1", some "/NL"⟩ 3).trace =
      [Effect.sendText "U1" (langConfirm "nl")] ∧
    (handleInbound envOk ⟨[⟨"U1", some "T1", none, 0⟩], []⟩ ⟨none, some "U1", some "START"⟩ 3).trace =
      [Effect.sendText "U1" (helpText none)] ∧
    Effect.appendMessage "T1" "/LANG" ∈
      (handleInbound envOk ⟨[⟨"U1", some "T1", none, 0⟩], []⟩ ⟨none, some "U1", some "/LANG"⟩ 3).trace :=
  have h := c9_case_sensitivity envOk ⟨[⟨"U1", some "T1", none, 0⟩], []⟩ 3 "U1"
    ⟨"U1", some "T1", none, 0⟩ "T1" (by decide) (by decide) rfl (by decide) rfl
  ⟨(h.1 "/NL" "nl" (by decide)).1, h.2.1 "START" (by decide), h.2.2.2.2.1⟩

/-! ### C10 — every stored session has a conversation handle -/

theorem threadsOk_setLanguage {tbl : ThreadsTable} (h : threadsOk tbl = true)
    (code u : String) : threadsOk (setLanguage tbl code u) = true := by
  simp only [threadsOk, List.all_eq_true] at h ⊢
  intro r hr
  simp only [setLanguage, List.mem_map] at hr
  obtain ⟨r0, hr0, rfl⟩ := hr
  have h0 := h r0 hr0
  split <;> simpa using h0

theorem threadsOk_upsert {tbl tbl' : ThreadsTable} {c t : String} {lang : Option String}
    {now : Nat} (h : threadsOk tbl = true)
    (hu : upsertThread tbl c (some t) lang now = .ok tbl') : threadsOk tbl' = true := by
  unfold upsertThread at hu
  cases hgt : getThread tbl c with
  | some r1 =>
    simp only [hgt] at hu
    cases hu
    simp only [threadsOk, List.all_eq_true] at h ⊢
    intro r hr
    simp only [List.mem_map] at hr
    obtain ⟨r0, hr0, rfl⟩ := hr
    have h0 := h r0 hr0
    split
    · simp
    · simpa using h0
  | none =>
    simp only [hgt] at hu
    cases hu
    simp only [threadsOk, List.all_append, Bool.and_eq_true] at h ⊢
    exact ⟨h, by simp [threadsOk]⟩

theorem lothisWithThread_threads (env : RemoteEnv) (threads : ThreadsTable)
    (chatId userText tid : String) (elang : Option String) (trace0 : List Effect) :
    (lothisWithThread env threads chatId userText tid elang trace0).threads = threads := by
  simp only [lothisWithThread, lothisAfterRun, lothisAfterPoll]
  repeat' first | rfl | split

theorem lothisReply_threadsOk (env : RemoteEnv) (threads : ThreadsTable)
    (chatId text : String) (now : Nat) (h : threadsOk threads = true) :
    threadsOk (lothisReply env threads chatId text now).threads = true := by
  simp only [lothisReply]
  split
  · rw [lothisWithThread_threads]
    exact h
  · split
    · exact h
    · split
      · exact h
      · rw [lothisWithThread_threads]
        exact threadsOk_upsert h (by assumption)

theorem handleAdmitted_threadsOk (env : RemoteEnv) (threads : ThreadsTable)
    (m : InMsg) (now : Nat) (h : threadsOk threads = true) :
    threadsOk (handleAdmitted env threads m now).1 = true := by
  simp only [handleAdmitted]
  split
  · exact h
  · split
    · exact h
    · split
      · exact h
      · split
        · exact h
        · split
          · split
            · exact threadsOk_setLanguage h _ _
            · split
              · exact h
              · split
                · exact h
                · exact threadsOk_upsert h (by assumption)
          · split
            · exact lothisReply_threadsOk _ _ _ _ _ h
            · exact lothisReply_threadsOk _ _ _ _ _ h

/-- C10: if every session row of the store has a non-null conversation
handle, then after handling any inbound event — under any remote
environment — every session row still has a non-null handle.  Both
creation paths write the handle obtained from the remote create, the
(modelled) NOT NULL column constraint rejects any null-handle write, and
`setLanguage` never touches the handle; so a session carrying only a
language preference and no handle is not reachable. -/
theorem c10_sessions_always_have_handle (env : RemoteEnv) (st : St) (m : InMsg)
    (now : Nat) (h : threadsOk st.threads = true) :
    threadsOk (handleInbound env st m now).st.threads = true := by
  simp only [handleInbound]
  split
  · split
    · exact h
    · split
      · exact h
      · exact handleAdmitted_threadsOk env st.threads m now h
  · exact handleAdmitted_threadsOk env st.threads m now h

/-- C10 witness: from the empty store, handling a first message leaves
only rows with handles. -/
theorem c10_witness :
    threadsOk ([] : ThreadsTable) = true ∧
    threadsOk (handleInbound envOk ⟨[], []⟩ ⟨some "D1", some "U1", some "hello"⟩ 0).st.threads =
      true :=
  ⟨by decide,
   c10_sessions_always_have_handle envOk ⟨[], []⟩ ⟨some "D1", some "U1", some "hello"⟩ 0
     (by decide)⟩

end Lothis
